import Mathlib

/-!
Verification of the cmux terminal process (`CmuxTerminalProcess`): a shallow
embedding of its WebSocket frame codec, receive-loop event handling, flow
control accounting, send guards, session creation error path, and session-id
hashing, with theorems checking the stated properties.

Buffers are modelled as `List Nat` (byte values), strings of UTF-16 code
units as `List Nat`.  JavaScript numbers holding counters are modelled as
`Int`; bitwise 32-bit truncation is explicit.
-/

namespace Cmux

/-- Frame decoded from the wire: `{ opcode, payload }`. -/
structure WSFrame where
  opcode : Nat
  payload : List Nat
deriving DecidableEq, Repr

/-- XOR each byte with `mask[i % 4]`, starting at index `i`
(the loop `payload[i] ^= maskKey[i % 4]`, used both by the parser for
unmasking and by the encoder for masking). -/
def maskBytesFrom (mask : List Nat) : Nat → List Nat → List Nat
  | _, [] => []
  | i, b :: bs => (b ^^^ mask.getD (i % 4) 0) :: maskBytesFrom mask (i + 1) bs

/-- Mask/unmask a whole payload (index starts at 0). -/
def maskBytes (mask payload : List Nat) : List Nat :=
  maskBytesFrom mask 0 payload

theorem maskBytesFrom_length (mask : List Nat) (i : Nat) (l : List Nat) :
    (maskBytesFrom mask i l).length = l.length := by
  induction l generalizing i with
  | nil => rfl
  | cons b bs ih => simp [maskBytesFrom, ih]

theorem maskBytes_length (mask l : List Nat) :
    (maskBytes mask l).length = l.length := maskBytesFrom_length mask 0 l

theorem maskBytesFrom_involutive (mask : List Nat) (i : Nat) (l : List Nat) :
    maskBytesFrom mask i (maskBytesFrom mask i l) = l := by
  induction l generalizing i with
  | nil => rfl
  | cons b bs ih =>
      simp [maskBytesFrom, ih, Nat.xor_assoc]

theorem maskBytes_involutive (mask l : List Nat) :
    maskBytes mask (maskBytes mask l) = l :=
  maskBytesFrom_involutive mask 0 l

/-- Big-endian 16-bit byte pair, the semantics of `Buffer.writeUInt16BE`. -/
def be16 (n : Nat) : List Nat :=
  [n / 256 % 256, n % 256]

/-- Big-endian 64-bit byte sequence, the semantics of `Buffer.writeBigUInt64BE`. -/
def be64 (n : Nat) : List Nat :=
  [n / 256 ^ 7 % 256, n / 256 ^ 6 % 256, n / 256 ^ 5 % 256, n / 256 ^ 4 % 256,
   n / 256 ^ 3 % 256, n / 256 ^ 2 % 256, n / 256 % 256, n % 256]

/-- `_createWebSocketFrame(data)`: build a masked client frame.  `isText`
reflects whether the argument was a JS string (opcode 0x01) versus a binary buffer
(opcode 0x02); `mask` stands for the 4 random bytes from
`crypto.randomBytes(4)`; `payload` is the UTF-8 byte content of `data`. -/
def createWebSocketFrame (isText : Bool) (mask : List Nat) (payload : List Nat) : List Nat :=
  let opcode := if isText then 0x01 else 0x02
  let maskedPayload := maskBytes mask payload
  let header : List Nat :=
    if payload.length < 126 then
      [0x80 ||| opcode, 0x80 ||| payload.length] ++ mask
    else if payload.length < 65536 then
      [0x80 ||| opcode, 0x80 ||| 126] ++ be16 payload.length ++ mask
    else
      [0x80 ||| opcode, 0x80 ||| 127] ++ be64 payload.length ++ mask
  header ++ maskedPayload

/-- Read the extended payload length for raw length field `rawLen`:
126 consumes two bytes (`readUInt16BE`), 127 consumes eight bytes
(`readBigUInt64BE`); otherwise the raw length is the payload length.
`none` models the `break` when insufficient bytes remain. -/
def readLen (rawLen : Nat) (rest : List Nat) : Option (Nat × List Nat) :=
  if rawLen = 126 then
    match rest with
    | l0 :: l1 :: r => some (l0 * 256 + l1, r)
    | _ => none
  else if rawLen = 127 then
    match rest with
    | l0 :: l1 :: l2 :: l3 :: l4 :: l5 :: l6 :: l7 :: r =>
        some (((((((l0 * 256 + l1) * 256 + l2) * 256 + l3) * 256 + l4) * 256 + l5)
          * 256 + l6) * 256 + l7, r)
    | _ => none
  else
    some (rawLen, rest)

/-- Read the 4-byte mask key when the mask bit was set; `none` models the
`break` when fewer than 4 bytes remain. -/
def readMaskKey (masked : Bool) (rest : List Nat) : Option (Option (List Nat) × List Nat) :=
  if masked then
    match rest with
    | m0 :: m1 :: m2 :: m3 :: r => some (some [m0, m1, m2, m3], r)
    | _ => none
  else
    some (none, rest)

/-- One iteration of the `_parseWebSocketFrames` loop: consume one complete
frame from the front of `data`, returning the frame and the remaining bytes,
or `none` on any of the truncation `break`s (header, extended length, mask
key, payload). -/
def parseOne (data : List Nat) : Option (WSFrame × List Nat) :=
  match data with
  | b1 :: b2 :: rest =>
    match readLen (b2 &&& 0x7F) rest with
    | none => none
    | some (payloadLength, r1) =>
      match readMaskKey (decide ((b2 &&& 0x80) ≠ 0)) r1 with
      | none => none
      | some (maskKey, r2) =>
        if payloadLength ≤ r2.length then
          let raw := r2.take payloadLength
          let payload :=
            match maskKey with
            | some mk => maskBytes mk raw
            | none => raw
          some (⟨b1 &&& 0x0F, payload⟩, r2.drop payloadLength)
        else
          none
  | _ => none

theorem readLen_length {rawLen : Nat} {rest r : List Nat} {n : Nat}
    (h : readLen rawLen rest = some (n, r)) : r.length ≤ rest.length := by
  unfold readLen at h
  split at h
  · match rest, h with
    | l0 :: l1 :: r0, h =>
        simp only [Option.some.injEq, Prod.mk.injEq] at h
        simp only [← h.2, List.length_cons]
        omega
  · split at h
    · match rest, h with
      | l0 :: l1 :: l2 :: l3 :: l4 :: l5 :: l6 :: l7 :: r0, h =>
          simp only [Option.some.injEq, Prod.mk.injEq] at h
          simp only [← h.2, List.length_cons]
          omega
    · simp only [Option.some.injEq, Prod.mk.injEq] at h
      simp [← h.2]

theorem readMaskKey_length {masked : Bool} {rest r : List Nat} {mk : Option (List Nat)}
    (h : readMaskKey masked rest = some (mk, r)) : r.length ≤ rest.length := by
  unfold readMaskKey at h
  split at h
  · match rest, h with
    | m0 :: m1 :: m2 :: m3 :: r0, h =>
        simp only [Option.some.injEq, Prod.mk.injEq] at h
        simp only [← h.2, List.length_cons]
        omega
  · simp only [Option.some.injEq, Prod.mk.injEq] at h
    simp [← h.2]

theorem parseOne_length {data rest : List Nat} {f : WSFrame}
    (h : parseOne data = some (f, rest)) : rest.length + 2 ≤ data.length := by
  unfold parseOne at h
  match data, h with
  | b1 :: b2 :: r0, h =>
    simp only at h
    cases h1 : readLen (b2 &&& 127) r0 with
    | none => rw [h1] at h; exact absurd h (by simp)
    | some v1 =>
      obtain ⟨payloadLength, r1⟩ := v1
      rw [h1] at h
      simp only at h
      cases h2 : readMaskKey (decide ((b2 &&& 128) ≠ 0)) r1 with
      | none => rw [h2] at h; exact absurd h (by simp)
      | some v2 =>
        obtain ⟨mk, r2⟩ := v2
        rw [h2] at h
        simp only at h
        split at h
        · simp only [Option.some.injEq, Prod.mk.injEq] at h
          have hr : rest = r2.drop payloadLength := h.2.symm
          have h3 := readLen_length h1
          have h4 := readMaskKey_length h2
          have : (r2.drop payloadLength).length ≤ r2.length := by
            simp [List.length_drop]
          simp only [List.length_cons, hr]
          omega
        · exact absurd h (by simp)

/-- Helper for `parseWebSocketFrames`, with an explicit fuel bound on the
number of loop iterations.  Since every successful iteration of the loop
consumes at least the 2 header bytes (`parseOne_length`), `data.length` fuel
always suffices. -/
def parseFramesAux : Nat → List Nat → List WSFrame
  | 0, _ => []
  | fuel + 1, data =>
    match parseOne data with
    | none => []
    | some (f, rest) => f :: parseFramesAux fuel rest

/-- `_parseWebSocketFrames(data)`: repeatedly consume complete frames from
the front of the buffer; stop (returning the frames found so far) at the
first truncation. -/
def parseWebSocketFrames (data : List Nat) : List WSFrame :=
  parseFramesAux data.length data

theorem parseFramesAux_fuel (fuel₁ : Nat) :
    ∀ fuel₂ data, data.length ≤ fuel₁ → data.length ≤ fuel₂ →
      parseFramesAux fuel₁ data = parseFramesAux fuel₂ data := by
  induction fuel₁ with
  | zero =>
    intro fuel₂ data h1 _
    have hd : data = [] := List.length_eq_zero.mp (Nat.le_zero.mp h1)
    subst hd
    cases fuel₂ with
    | zero => rfl
    | succ n => simp [parseFramesAux, parseOne]
  | succ n ih =>
    intro fuel₂ data h1 h2
    cases fuel₂ with
    | zero =>
      have hd : data = [] := List.length_eq_zero.mp (Nat.le_zero.mp h2)
      subst hd
      simp [parseFramesAux, parseOne]
    | succ m =>
      simp only [parseFramesAux]
      cases hp : parseOne data with
      | none => rfl
      | some v =>
        obtain ⟨f, rest⟩ := v
        have hlen := parseOne_length hp
        simp only
        exact congrArg (f :: ·) (ih m rest (by omega) (by omega))

theorem parseWebSocketFrames_eq (data : List Nat) :
    parseWebSocketFrames data =
      match parseOne data with
      | none => []
      | some (f, rest) => f :: parseWebSocketFrames rest := by
  cases hp : parseOne data with
  | none =>
    unfold parseWebSocketFrames
    cases data with
    | nil => rfl
    | cons b bs => simp [parseFramesAux, hp]
  | some v =>
    obtain ⟨f, rest⟩ := v
    have hlen := parseOne_length hp
    unfold parseWebSocketFrames
    cases hd : data with
    | nil => rw [hd] at hp; simp [parseOne] at hp
    | cons b bs =>
      rw [← hd]
      have hpos : data.length = (data.length - 1) + 1 := by
        rw [hd]; simp
      rw [hpos]
      simp only [parseFramesAux, hp]
      congr 1
      exact parseFramesAux_fuel (data.length - 1) rest.length rest (by omega) (by omega)

theorem parseOne_short {data : List Nat} (h : data.length < 2) :
    parseOne data = none := by
  match data, h with
  | [], _ => rfl
  | [b], _ => rfl

theorem parseWebSocketFrames_short {data : List Nat} (h : data.length < 2) :
    parseWebSocketFrames data = [] := by
  rw [parseWebSocketFrames_eq, parseOne_short h]

theorem lor128_and127 : ∀ l, l < 126 → (128 ||| l) &&& 127 = l := by decide

theorem lor128_and128 : ∀ l, l < 126 → (128 ||| l) &&& 128 = 128 := by decide

theorem lor128_lt (l : Nat) (h : l < 126) : 128 ||| l < 256 := by
  have : ∀ l, l < 126 → 128 ||| l < 256 := by decide
  exact this l h

theorem parseOne_cons (b1 b2 : Nat) (rest : List Nat) :
    parseOne (b1 :: b2 :: rest) =
      match readLen (b2 &&& 0x7F) rest with
      | none => none
      | some (payloadLength, r1) =>
        match readMaskKey (decide ((b2 &&& 0x80) ≠ 0)) r1 with
        | none => none
        | some (maskKey, r2) =>
          if payloadLength ≤ r2.length then
            some (⟨b1 &&& 0x0F,
              match maskKey with
              | some mk => maskBytes mk (r2.take payloadLength)
              | none => r2.take payloadLength⟩, r2.drop payloadLength)
          else none := rfl

theorem parseOne_masked_short (b1 L : Nat) (hL : L < 126) (a b c d : Nat)
    (mp tail : List Nat) (hmp : mp.length = L) :
    parseOne (b1 :: (128 ||| L) :: a :: b :: c :: d :: (mp ++ tail)) =
      some (⟨b1 &&& 0x0F, maskBytes [a, b, c, d] mp⟩, tail) := by
  have h6 : L ≠ 126 := by omega
  have h7 : L ≠ 127 := by omega
  have hd : decide (((128 ||| L) &&& 128 : Nat) ≠ 0) = true := by
    rw [lor128_and128 L hL]; decide
  rw [parseOne_cons, lor128_and127 L hL]
  simp only [readLen, if_neg h6, if_neg h7, hd, readMaskKey]
  rw [← hmp]
  simp [List.take_left, List.drop_left]

theorem parseOne_masked_ext16 (b1 L : Nat) (hL : L < 65536) (a b c d : Nat)
    (mp tail : List Nat) (hmp : mp.length = L) :
    parseOne (b1 :: 254 :: (L / 256 % 256) :: (L % 256) :: a :: b :: c :: d ::
        (mp ++ tail)) =
      some (⟨b1 &&& 0x0F, maskBytes [a, b, c, d] mp⟩, tail) := by
  have hand : (254 &&& 127 : Nat) = 126 := by decide
  have hd : decide ((254 &&& 128 : Nat) ≠ 0) = true := by decide
  have hval : L / 256 % 256 * 256 + L % 256 = L := by omega
  rw [parseOne_cons, hand]
  simp only [readLen, if_pos rfl, hd, readMaskKey, hval]
  rw [← hmp]
  simp [List.take_left, List.drop_left]

theorem parseOne_masked_ext64 (b1 L : Nat) (hL : L < 2 ^ 64) (a b c d : Nat)
    (mp tail : List Nat) (hmp : mp.length = L) :
    parseOne (b1 :: 255 :: (L / 256 ^ 7 % 256) :: (L / 256 ^ 6 % 256) ::
        (L / 256 ^ 5 % 256) :: (L / 256 ^ 4 % 256) :: (L / 256 ^ 3 % 256) ::
        (L / 256 ^ 2 % 256) :: (L / 256 % 256) :: (L % 256) :: a :: b :: c :: d ::
        (mp ++ tail)) =
      some (⟨b1 &&& 0x0F, maskBytes [a, b, c, d] mp⟩, tail) := by
  have hand : (255 &&& 127 : Nat) = 127 := by decide
  have hne : (127 : Nat) ≠ 126 := by decide
  have hd : decide ((255 &&& 128 : Nat) ≠ 0) = true := by decide
  have hval : ((((((L / 256 ^ 7 % 256 * 256 + L / 256 ^ 6 % 256) * 256 +
      L / 256 ^ 5 % 256) * 256 + L / 256 ^ 4 % 256) * 256 + L / 256 ^ 3 % 256) * 256 +
      L / 256 ^ 2 % 256) * 256 + L / 256 % 256) * 256 + L % 256 = L := by
    have h64 : L < 18446744073709551616 := by
      have : (2 : Nat) ^ 64 = 18446744073709551616 := by norm_num
      omega
    omega
  rw [parseOne_cons, hand]
  simp only [readLen, if_neg hne, if_pos rfl, hd, readMaskKey, hval]
  rw [← hmp]
  simp [List.take_left, List.drop_left]

theorem parseOne_create (isText : Bool) (a b c d : Nat) (payload : List Nat)
    (hlen : payload.length < 2 ^ 64) :
    parseOne (createWebSocketFrame isText [a, b, c, d] payload) =
      some (⟨if isText then 0x01 else 0x02, payload⟩, []) := by
  have hmp := maskBytes_length [a, b, c, d] payload
  have hop : (128 ||| (if isText then 1 else 2)) &&& 15 = if isText then 1 else 2 := by
    cases isText <;> decide
  by_cases h1 : payload.length < 126
  · have h := parseOne_masked_short (128 ||| (if isText then 1 else 2)) payload.length
      h1 a b c d (maskBytes [a, b, c, d] payload) [] hmp
    rw [List.append_nil] at h
    simp only [createWebSocketFrame, if_pos h1]
    simp only [List.cons_append, List.nil_append, List.append_assoc] at h ⊢
    rw [h, hop, maskBytes_involutive]
  · by_cases h2 : payload.length < 65536
    · have h := parseOne_masked_ext16 (128 ||| (if isText then 1 else 2)) payload.length
        h2 a b c d (maskBytes [a, b, c, d] payload) [] hmp
      rw [List.append_nil] at h
      have h254 : (128 ||| 126 : Nat) = 254 := by decide
      simp only [createWebSocketFrame, if_neg h1, if_pos h2, be16, h254]
      simp only [List.cons_append, List.nil_append, List.append_assoc] at h ⊢
      rw [h, hop, maskBytes_involutive]
    · have h := parseOne_masked_ext64 (128 ||| (if isText then 1 else 2)) payload.length
        hlen a b c d (maskBytes [a, b, c, d] payload) [] hmp
      rw [List.append_nil] at h
      have h255 : (128 ||| 127 : Nat) = 255 := by decide
      simp only [createWebSocketFrame, if_neg h1, if_neg h2, be64, h255]
      simp only [List.cons_append, List.nil_append, List.append_assoc] at h ⊢
      rw [h, hop, maskBytes_involutive]

/-- Encode-then-decode round-trip for arbitrary payloads (the encoder writes
at most a 64-bit length, hence the bound; JavaScript buffer lengths are far
below it). -/
theorem parse_create_roundtrip (isText : Bool) (mask payload : List Nat)
    (hm : mask.length = 4) (hlen : payload.length < 2 ^ 64) :
    parseWebSocketFrames (createWebSocketFrame isText mask payload) =
      [⟨if isText then 0x01 else 0x02, payload⟩] := by
  match mask, hm with
  | [a, b, c, d], _ =>
    rw [parseWebSocketFrames_eq, parseOne_create isText a b c d payload hlen]
    rfl

theorem readLen_append {rawLen n : Nat} {rest r : List Nat} (t : List Nat)
    (h : readLen rawLen rest = some (n, r)) :
    readLen rawLen (rest ++ t) = some (n, r ++ t) := by
  by_cases h126 : rawLen = 126
  · subst h126
    match rest, h with
    | l0 :: l1 :: r0, h =>
      have e1 : ∀ r0 : List Nat, readLen 126 (l0 :: l1 :: r0) =
          some (l0 * 256 + l1, r0) := fun r0 => by simp [readLen]
      rw [e1, Option.some.injEq, Prod.mk.injEq] at h
      rw [List.cons_append, List.cons_append, e1, Option.some.injEq, Prod.mk.injEq]
      exact ⟨h.1, by rw [h.2]⟩
  · by_cases h127 : rawLen = 127
    · subst h127
      match rest, h with
      | l0 :: l1 :: l2 :: l3 :: l4 :: l5 :: l6 :: l7 :: r0, h =>
        have e1 : ∀ r0 : List Nat,
            readLen 127 (l0 :: l1 :: l2 :: l3 :: l4 :: l5 :: l6 :: l7 :: r0) =
            some (((((((l0 * 256 + l1) * 256 + l2) * 256 + l3) * 256 + l4) * 256 + l5)
              * 256 + l6) * 256 + l7, r0) := fun r0 => by simp [readLen]
        rw [e1, Option.some.injEq, Prod.mk.injEq] at h
        simp only [List.cons_append]
        rw [e1, Option.some.injEq, Prod.mk.injEq]
        exact ⟨h.1, by rw [h.2]⟩
    · simp only [readLen, if_neg h126, if_neg h127, Option.some.injEq,
        Prod.mk.injEq] at h ⊢
      exact ⟨h.1, by rw [h.2]⟩

theorem readMaskKey_append {masked : Bool} {rest r : List Nat}
    {mk : Option (List Nat)} (t : List Nat)
    (h : readMaskKey masked rest = some (mk, r)) :
    readMaskKey masked (rest ++ t) = some (mk, r ++ t) := by
  cases masked with
  | false =>
    simp only [readMaskKey, Bool.false_eq_true, if_neg, Option.some.injEq,
      Prod.mk.injEq, if_false] at h ⊢
    exact ⟨h.1, by rw [h.2]⟩
  | true =>
    match rest, h with
    | m0 :: m1 :: m2 :: m3 :: r0, h =>
      have e1 : ∀ r0 : List Nat, readMaskKey true (m0 :: m1 :: m2 :: m3 :: r0) =
          some (some [m0, m1, m2, m3], r0) := fun r0 => by simp [readMaskKey]
      rw [e1, Option.some.injEq, Prod.mk.injEq] at h
      simp only [List.cons_append]
      rw [e1, Option.some.injEq, Prod.mk.injEq]
      exact ⟨h.1, by rw [h.2]⟩

/-- Consuming one complete frame is insensitive to bytes appended after it:
the same frame is produced and the appended bytes are left over. -/
theorem parseOne_append {data rest : List Nat} {f : WSFrame} (t : List Nat)
    (h : parseOne data = some (f, rest)) :
    parseOne (data ++ t) = some (f, rest ++ t) := by
  match data, h with
  | b1 :: b2 :: r0, h =>
    rw [parseOne_cons] at h
    simp only [List.cons_append]
    rw [parseOne_cons]
    cases h1 : readLen (b2 &&& 127) r0 with
    | none => rw [h1] at h; simp at h
    | some v =>
      obtain ⟨pl, r1⟩ := v
      rw [h1] at h
      rw [readLen_append t h1]
      simp only at h ⊢
      cases h2 : readMaskKey (decide ((b2 &&& 128) ≠ 0)) r1 with
      | none => rw [h2] at h; simp at h
      | some v2 =>
        obtain ⟨mk, r2⟩ := v2
        rw [h2] at h
        rw [readMaskKey_append t h2]
        simp only at h ⊢
        split at h
        · next hle =>
          have hle2 : pl ≤ (r2 ++ t).length := by
            simp only [List.length_append]; omega
          rw [if_pos hle2, List.take_append_of_le_length hle,
            List.drop_append_of_le_length hle]
          simp only [Option.some.injEq, Prod.mk.injEq] at h ⊢
          exact ⟨h.1, by rw [h.2]⟩
        · simp at h

/-- C1: for every payload whose length is one of the boundary values
0, 1, 125, 126, 65535, 65536 and for both the text and binary opcodes,
building a frame with `_createWebSocketFrame` and parsing the result with
`_parseWebSocketFrames` yields exactly one frame with the original opcode
and payload. -/
theorem c1_encode_decode_boundary_roundtrip (isText : Bool) (mask payload : List Nat)
    (hm : mask.length = 4)
    (hL : payload.length = 0 ∨ payload.length = 1 ∨ payload.length = 125 ∨
      payload.length = 126 ∨ payload.length = 65535 ∨ payload.length = 65536) :
    parseWebSocketFrames (createWebSocketFrame isText mask payload) =
      [⟨if isText then 0x01 else 0x02, payload⟩] := by
  apply parse_create_roundtrip isText mask payload hm
  have h64 : (2 : Nat) ^ 64 = 18446744073709551616 := by norm_num
  omega

theorem c1_encode_decode_boundary_roundtrip_witness :
    ([1, 2, 3, 4] : List Nat).length = 4 ∧
    ([9] : List Nat).length = 1 ∧
    parseWebSocketFrames (createWebSocketFrame true [1, 2, 3, 4] [9]) = [⟨0x01, [9]⟩] :=
  ⟨rfl, rfl,
    c1_encode_decode_boundary_roundtrip true [1, 2, 3, 4] [9] rfl (Or.inr (Or.inl rfl))⟩

/-- Size in bytes of the buffer written by `_createWebSocketFrame` before the
masked payload (the `Buffer.alloc(6)` / `Buffer.alloc(8)` / `Buffer.alloc(14)`
header, which includes the 4-byte mask key at its end). -/
def headerSize (L : Nat) : Nat :=
  if L < 126 then 6 else if L < 65536 then 8 else 14

/-- C4: every frame produced by `_createWebSocketFrame` has the mask bit
(high bit of byte 1) set, carries the 4-byte mask key just before the
payload, and XOR-ing each transmitted payload byte with `maskKey[i % 4]`
recovers the original payload exactly. -/
theorem c4_created_frames_masked (isText : Bool) (mask payload : List Nat)
    (hm : mask.length = 4) :
    (createWebSocketFrame isText mask payload).getD 1 0 &&& 0x80 = 0x80 ∧
    ((createWebSocketFrame isText mask payload).drop
      (headerSize payload.length - 4)).take 4 = mask ∧
    maskBytes mask ((createWebSocketFrame isText mask payload).drop
      (headerSize payload.length)) = payload := by
  match mask, hm with
  | [a, b, c, d], _ =>
    by_cases h1 : payload.length < 126
    · simp only [createWebSocketFrame, headerSize, if_pos h1, List.cons_append,
        List.nil_append]
      refine ⟨?_, ?_, ?_⟩
      · simp only [List.getD_cons_succ, List.getD_cons_zero]
        exact lor128_and128 _ h1
      · norm_num [List.drop, List.take]
      · norm_num [List.drop, maskBytes_involutive]
    · by_cases h2 : payload.length < 65536
      · simp only [createWebSocketFrame, headerSize, if_neg h1, if_pos h2, be16,
          List.cons_append, List.nil_append]
        refine ⟨?_, ?_, ?_⟩
        · simp only [List.getD_cons_succ, List.getD_cons_zero]
          decide
        · norm_num [List.drop, List.take]
        · norm_num [List.drop, maskBytes_involutive]
      · simp only [createWebSocketFrame, headerSize, if_neg h1, if_neg h2, be64,
          List.cons_append, List.nil_append]
        refine ⟨?_, ?_, ?_⟩
        · simp only [List.getD_cons_succ, List.getD_cons_zero]
          decide
        · norm_num [List.drop, List.take]
        · norm_num [List.drop, maskBytes_involutive]

theorem c4_created_frames_masked_witness :
    ([7, 8, 9, 10] : List Nat).length = 4 ∧
    (createWebSocketFrame false [7, 8, 9, 10] [1, 2]).getD 1 0 &&& 0x80 = 0x80 ∧
    ((createWebSocketFrame false [7, 8, 9, 10] [1, 2]).drop
      (headerSize ([1, 2] : List Nat).length - 4)).take 4 = [7, 8, 9, 10] ∧
    maskBytes [7, 8, 9, 10] ((createWebSocketFrame false [7, 8, 9, 10] [1, 2]).drop
      (headerSize ([1, 2] : List Nat).length)) = [1, 2] :=
  ⟨rfl, (c4_created_frames_masked false [7, 8, 9, 10] [1, 2] rfl).1,
    (c4_created_frames_masked false [7, 8, 9, 10] [1, 2] rfl).2.1,
    (c4_created_frames_masked false [7, 8, 9, 10] [1, 2] rfl).2.2⟩

/-- C5: a buffer holding exactly one complete frame (`parseOne` consumes it
entirely) followed by fewer than 2 trailing bytes parses to exactly that one
frame; the trailing bytes are neither consumed nor emitted. -/
theorem c5_single_frame_ignores_short_tail (frameBytes trail : List Nat) (f : WSFrame)
    (hone : parseOne frameBytes = some (f, []))
    (htrail : trail.length < 2) :
    parseWebSocketFrames (frameBytes ++ trail) = [f] := by
  have h := parseOne_append trail hone
  simp only [List.nil_append] at h
  rw [parseWebSocketFrames_eq, h]
  simp only
  rw [parseWebSocketFrames_short htrail]

theorem c5_single_frame_ignores_short_tail_witness :
    parseOne [129, 128, 1, 2, 3, 4] = some (⟨1, []⟩, []) ∧
    ([200] : List Nat).length < 2 ∧
    parseWebSocketFrames ([129, 128, 1, 2, 3, 4] ++ [200]) = [⟨1, []⟩] :=
  ⟨by decide, by decide,
    c5_single_frame_ignores_short_tail [129, 128, 1, 2, 3, 4] [200] ⟨1, []⟩
      (by decide) (by decide)⟩

/-- C10: `_parseWebSocketFrames` is total and never reads past its input:
with fewer than 2 bytes nothing is parsed, and in general either parsing
stops (returning the frames found so far — here the empty continuation) or
exactly one frame is consumed, taking at least its 2 header bytes and at most
the whole remaining buffer, and parsing continues on the strictly shorter
remainder. -/
theorem c10_parse_never_reads_past_end (data : List Nat) :
    (data.length < 2 → parseWebSocketFrames data = []) ∧
    (parseWebSocketFrames data = [] ∨
      ∃ f rest, parseOne data = some (f, rest) ∧ rest.length + 2 ≤ data.length ∧
        parseWebSocketFrames data = f :: parseWebSocketFrames rest) := by
  constructor
  · exact fun h => parseWebSocketFrames_short h
  · cases hp : parseOne data with
    | none =>
      left
      rw [parseWebSocketFrames_eq, hp]
    | some v =>
      obtain ⟨f, rest⟩ := v
      right
      refine ⟨f, rest, rfl, parseOne_length hp, ?_⟩
      rw [parseWebSocketFrames_eq, hp]

theorem c10_parse_never_reads_past_end_witness :
    ([5] : List Nat).length < 2 ∧ parseWebSocketFrames [5] = [] :=
  ⟨by decide, (c10_parse_never_reads_past_end [5]).1 (by decide)⟩

/-- Event fired toward the embedding process abstraction. -/
inductive TermEvent where
  | data (payload : List Nat)
  | exit (code : Int)
deriving DecidableEq, Repr

/-- Mutable per-process state touched by the receive loop and flow control:
`_unacknowledgedCharCount`, `_isPtyPaused`, `_exitCode`, plus the ordered
list of events fired so far. -/
structure ProcState where
  unacknowledgedCharCount : Int
  isPtyPaused : Bool
  exitCode : Option Int
  events : List TermEvent
deriving DecidableEq, Repr

/-- State at construction time. -/
def initProcState : ProcState :=
  { unacknowledgedCharCount := 0, isPtyPaused := false, exitCode := none, events := [] }

/-- Body of the `for (const frame of frames)` loop in the socket data
handler: text/binary frames feed flow control and fire a data event, close
frames (0x08) set the exit code to 0 and fire exit, any other opcode is
ignored.  `high` is `FlowControlConstants.HighWatermarkChars`; `textLen`
gives the character length of the UTF-8 decoding of the payload. -/
def handleFrame (high : Int) (textLen : List Nat → Nat) (st : ProcState)
    (f : WSFrame) : ProcState :=
  if f.opcode = 0x01 ∨ f.opcode = 0x02 then
    let n : Int := textLen f.payload
    let c := st.unacknowledgedCharCount + n
    let p := if st.isPtyPaused = false ∧ high < c then true else st.isPtyPaused
    { st with unacknowledgedCharCount := c, isPtyPaused := p,
              events := st.events ++ [TermEvent.data f.payload] }
  else if f.opcode = 0x08 then
    { st with exitCode := some 0, events := st.events ++ [TermEvent.exit 0] }
  else
    st

/-- The socket close handler: default the exit code to 0 if unset
(`this._exitCode = this._exitCode ?? 0`) and fire an exit event. -/
def handleSocketClose (st : ProcState) : ProcState :=
  let c := st.exitCode.getD 0
  { st with exitCode := some c, events := st.events ++ [TermEvent.exit c] }

/-- `acknowledgeDataEvent(charCount)`: subtract, clamping at zero, and
resume (unpause) when paused and below `LowWatermarkChars` (`low`). -/
def acknowledgeDataEvent (low : Int) (st : ProcState) (charCount : Nat) : ProcState :=
  let c := max (st.unacknowledgedCharCount - charCount) 0
  let p := if st.isPtyPaused = true ∧ c < low then false else st.isPtyPaused
  { st with unacknowledgedCharCount := c, isPtyPaused := p }

/-- An operation on the flow-control counters: an inbound text frame of a
given character length, or an acknowledgement. -/
inductive FlowOp where
  | feed (len : Nat)
  | ack (n : Nat)
deriving DecidableEq, Repr

def applyFlowOp (high low : Int) (st : ProcState) : FlowOp → ProcState
  | FlowOp.feed len => handleFrame high List.length st ⟨0x01, List.replicate len 0⟩
  | FlowOp.ack n => acknowledgeDataEvent low st n

def applyFlowOps (high low : Int) (st : ProcState) (ops : List FlowOp) : ProcState :=
  ops.foldl (applyFlowOp high low) st

/-- Number of steps in a run at which `isPtyPaused` transitions false → true. -/
def countPauseFlips (high low : Int) : ProcState → List FlowOp → Nat
  | _, [] => 0
  | st, op :: ops =>
    let st2 := applyFlowOp high low st op
    (if st.isPtyPaused = false ∧ st2.isPtyPaused = true then 1 else 0) +
      countPauseFlips high low st2 ops

/-- Number of steps in a run at which `isPtyPaused` transitions true → false. -/
def countResumeFlips (high low : Int) : ProcState → List FlowOp → Nat
  | _, [] => 0
  | st, op :: ops =>
    let st2 := applyFlowOp high low st op
    (if st.isPtyPaused = true ∧ st2.isPtyPaused = false then 1 else 0) +
      countResumeFlips high low st2 ops

theorem feed_count (high low : Int) (st : ProcState) (len : Nat) :
    (applyFlowOp high low st (FlowOp.feed len)).unacknowledgedCharCount =
      st.unacknowledgedCharCount + len := by
  simp [applyFlowOp, handleFrame]

theorem feed_paused (high low : Int) (st : ProcState) (len : Nat) :
    (applyFlowOp high low st (FlowOp.feed len)).isPtyPaused =
      (if st.isPtyPaused = false ∧ high < st.unacknowledgedCharCount + len
        then true else st.isPtyPaused) := by
  simp [applyFlowOp, handleFrame]

theorem ack_count (high low : Int) (st : ProcState) (n : Nat) :
    (applyFlowOp high low st (FlowOp.ack n)).unacknowledgedCharCount =
      max (st.unacknowledgedCharCount - n) 0 := by
  simp [applyFlowOp, acknowledgeDataEvent]

theorem ack_paused (high low : Int) (st : ProcState) (n : Nat) :
    (applyFlowOp high low st (FlowOp.ack n)).isPtyPaused =
      (if st.isPtyPaused = true ∧ max (st.unacknowledgedCharCount - n) 0 < low
        then false else st.isPtyPaused) := by
  simp [applyFlowOp, acknowledgeDataEvent]

theorem applyFlowOps_cons (high low : Int) (st : ProcState) (op : FlowOp)
    (ops : List FlowOp) :
    applyFlowOps high low st (op :: ops) =
      applyFlowOps high low (applyFlowOp high low st op) ops := rfl

theorem feed_preserves_inv (high low : Int) (st : ProcState) (len : Nat)
    (hinv : st.isPtyPaused = false → st.unacknowledgedCharCount ≤ high) :
    (applyFlowOp high low st (FlowOp.feed len)).isPtyPaused = false →
      (applyFlowOp high low st (FlowOp.feed len)).unacknowledgedCharCount ≤ high := by
  intro h2
  rw [feed_paused] at h2
  rw [feed_count]
  by_cases hc : st.isPtyPaused = false ∧ high < st.unacknowledgedCharCount + (len : Int)
  · rw [if_pos hc] at h2
    exact absurd h2 (by simp)
  · rw [if_neg hc] at h2
    push_neg at hc
    have := hc h2
    omega

/-- With feeds only, starting from a state satisfying the pause invariant,
`isPtyPaused` flips to true exactly once when the cumulative volume crosses
the high watermark, and never otherwise. -/
theorem feeds_pause_flips (high low : Int) (lens : List Nat) :
    ∀ st : ProcState, (st.isPtyPaused = false → st.unacknowledgedCharCount ≤ high) →
    countPauseFlips high low st (lens.map FlowOp.feed) =
      (if st.isPtyPaused = false ∧
          high < st.unacknowledgedCharCount + (lens.sum : Int)
        then 1 else 0) := by
  induction lens with
  | nil =>
    intro st hinv
    simp only [List.map_nil, countPauseFlips, List.sum_nil, Nat.cast_zero, add_zero]
    by_cases hps : st.isPtyPaused = false
    · have hle := hinv hps
      rw [if_neg (fun hand => absurd hand.2 (not_lt.mpr hle))]
    · rw [if_neg (fun hand => hps hand.1)]
  | cons len lens ih =>
    intro st hinv
    simp only [List.map_cons, countPauseFlips, List.sum_cons]
    rw [ih _ (feed_preserves_inv high low st len hinv)]
    have hc := feed_count high low st len
    have hsum : (0 : Int) ≤ (lens.sum : Int) := Int.natCast_nonneg _
    by_cases hps : st.isPtyPaused = false
    · by_cases hhi : high < st.unacknowledgedCharCount + (len : Int)
      · have hp2 : (applyFlowOp high low st (FlowOp.feed len)).isPtyPaused = true := by
          rw [feed_paused, if_pos ⟨hps, hhi⟩]
        rw [if_pos ⟨hps, hp2⟩, if_neg (by rw [hp2]; simp),
          if_pos ⟨hps, by rw [Nat.cast_add]; omega⟩]
      · have hp2 : (applyFlowOp high low st (FlowOp.feed len)).isPtyPaused = false := by
          rw [feed_paused, if_neg (fun hand => hhi hand.2)]
          exact hps
        rw [if_neg (by rw [hp2]; simp), hp2, hc, Nat.zero_add]
        simp only [hps, eq_self_iff_true, true_and]
        by_cases hA : high < st.unacknowledgedCharCount + (len : Int) + (lens.sum : Int)
        · rw [if_pos hA, if_pos (by rw [Nat.cast_add]; omega)]
        · rw [if_neg hA, if_neg (by rw [Nat.cast_add]; omega)]
    · have hpt : st.isPtyPaused = true := by
        cases h : st.isPtyPaused with
        | true => rfl
        | false => exact absurd h hps
      have hp2 : (applyFlowOp high low st (FlowOp.feed len)).isPtyPaused = true := by
        rw [feed_paused, if_neg (fun hand => hps hand.1)]
        exact hpt
      rw [if_neg (fun hand => hps hand.1), if_neg (by rw [hp2]; simp),
        if_neg (fun hand => hps hand.1)]

/-- Acknowledgements never increase the counter and keep it non-negative. -/
theorem acks_count_le (high low : Int) (ns : List Nat) :
    ∀ st : ProcState, 0 ≤ st.unacknowledgedCharCount →
      (applyFlowOps high low st (ns.map FlowOp.ack)).unacknowledgedCharCount ≤
        st.unacknowledgedCharCount ∧
      0 ≤ (applyFlowOps high low st (ns.map FlowOp.ack)).unacknowledgedCharCount := by
  induction ns with
  | nil =>
    intro st h0
    exact ⟨le_refl _, h0⟩
  | cons n ns ih =>
    intro st h0
    simp only [List.map_cons]
    rw [applyFlowOps_cons]
    have hc := ack_count high low st n
    have h2 : 0 ≤ (applyFlowOp high low st (FlowOp.ack n)).unacknowledgedCharCount := by
      rw [hc]
      exact le_max_right _ _
    obtain ⟨ha, hb⟩ := ih (applyFlowOp high low st (FlowOp.ack n)) h2
    refine ⟨le_trans ha ?_, hb⟩
    rw [hc]
    have : (0 : Int) ≤ (n : Int) := Int.natCast_nonneg _
    exact max_le (by omega) h0

/-- With acknowledgements only, starting from a state satisfying the resume
invariant, `isPtyPaused` flips to false exactly once when the counter drops
below the low watermark while paused, and never otherwise. -/
theorem acks_resume_flips (high low : Int) (ns : List Nat) :
    ∀ st : ProcState, (st.isPtyPaused = true → low ≤ st.unacknowledgedCharCount) →
    countResumeFlips high low st (ns.map FlowOp.ack) =
      (if st.isPtyPaused = true ∧
          (applyFlowOps high low st (ns.map FlowOp.ack)).unacknowledgedCharCount < low
        then 1 else 0) := by
  induction ns with
  | nil =>
    intro st hinv
    simp only [List.map_nil, countResumeFlips, applyFlowOps, List.foldl_nil]
    by_cases hp : st.isPtyPaused = true
    · rw [if_neg (fun hand => absurd hand.2 (not_lt.mpr (hinv hp)))]
    · rw [if_neg (fun hand => hp hand.1)]
  | cons n ns ih =>
    intro st hinv
    simp only [List.map_cons, countResumeFlips]
    simp only [applyFlowOps_cons]
    have hc := ack_count high low st n
    have h2 : 0 ≤ (applyFlowOp high low st (FlowOp.ack n)).unacknowledgedCharCount := by
      rw [hc]
      exact le_max_right _ _
    by_cases hp : st.isPtyPaused = true
    · by_cases hlo : max (st.unacknowledgedCharCount - (n : Int)) 0 < low
      · have hp2 : (applyFlowOp high low st (FlowOp.ack n)).isPtyPaused = false := by
          rw [ack_paused, if_pos ⟨hp, hlo⟩]
        have hfin :=
          (acks_count_le high low ns (applyFlowOp high low st (FlowOp.ack n)) h2).1
        rw [ih _ (fun h => absurd (hp2 ▸ h) (by simp))]
        rw [if_pos ⟨hp, hp2⟩, if_neg (by rw [hp2]; simp),
          if_pos ⟨hp, by rw [hc] at hfin; omega⟩]
      · have hp2 : (applyFlowOp high low st (FlowOp.ack n)).isPtyPaused = true := by
          rw [ack_paused, if_neg (fun hand => hlo hand.2)]
          cases h : st.isPtyPaused with
          | true => rfl
          | false => exact absurd hp (by rw [h]; simp)
        rw [ih _ (fun _ => by rw [hc]; omega)]
        rw [if_neg (by rw [hp2]; simp), hp2, Nat.zero_add]
        simp only [hp2, eq_self_iff_true, true_and]
        by_cases hA :
            (applyFlowOps high low (applyFlowOp high low st (FlowOp.ack n))
              (ns.map FlowOp.ack)).unacknowledgedCharCount < low
        · rw [if_pos hA, if_pos ⟨hp, hA⟩]
        · rw [if_neg hA, if_neg (fun hand => hA hand.2)]
    · have hp2 : (applyFlowOp high low st (FlowOp.ack n)).isPtyPaused = false := by
        rw [ack_paused, if_neg (fun hand => hp hand.1)]
        cases h : st.isPtyPaused with
        | false => rfl
        | true => exact absurd h hp
      rw [ih _ (fun h => absurd (hp2 ▸ h) (by simp))]
      rw [if_neg (fun hand => hp hand.1), if_neg (by rw [hp2]; simp),
        if_neg (fun hand => hp hand.1)]

/-- The counter stays non-negative under every sequence of operations. -/
theorem flowOps_count_nonneg (high low : Int) (ops : List FlowOp) :
    ∀ st : ProcState, 0 ≤ st.unacknowledgedCharCount →
      0 ≤ (applyFlowOps high low st ops).unacknowledgedCharCount := by
  induction ops with
  | nil =>
    intro st h
    exact h
  | cons op ops ih =>
    intro st h
    rw [applyFlowOps_cons]
    apply ih
    cases op with
    | feed len =>
      rw [feed_count]
      have : (0 : Int) ≤ (len : Int) := Int.natCast_nonneg _
      omega
    | ack n =>
      rw [ack_count]
      exact le_max_right _ _

/-- C3: from the initial state, feeds whose cumulative length exceeds the
high watermark set `isPtyPaused` exactly once (and otherwise never);
from a paused state not yet below the low watermark, acknowledgements that
bring the counter below the low watermark clear `isPtyPaused` exactly once
(and otherwise never); and under every operation sequence the counter is
clamped at zero, never negative. -/
theorem c3_flow_control_hysteresis (high low : Int) (lens ns : List Nat)
    (ops : List FlowOp) (st : ProcState) (hhigh : 0 ≤ high) :
    countPauseFlips high low initProcState (lens.map FlowOp.feed) =
      (if high < (lens.sum : Int) then 1 else 0) ∧
    (st.isPtyPaused = true → low ≤ st.unacknowledgedCharCount →
      countResumeFlips high low st (ns.map FlowOp.ack) =
        (if (applyFlowOps high low st (ns.map FlowOp.ack)).unacknowledgedCharCount < low
          then 1 else 0)) ∧
    (0 ≤ st.unacknowledgedCharCount →
      0 ≤ (applyFlowOps high low st ops).unacknowledgedCharCount) := by
  refine ⟨?_, ?_, fun h => flowOps_count_nonneg high low ops st h⟩
  · rw [feeds_pause_flips high low lens initProcState (fun _ => hhigh)]
    simp [initProcState]
  · intro hp hlow
    rw [acks_resume_flips high low ns st (fun _ => hlow)]
    simp [hp]

theorem c3_flow_control_hysteresis_witness :
    (0 : Int) ≤ 10 ∧
    countPauseFlips 10 5 initProcState ([6, 7].map FlowOp.feed) = 1 ∧
    countResumeFlips 10 5 ⟨12, true, none, []⟩ ([20].map FlowOp.ack) = 1 ∧
    0 ≤ (applyFlowOps 10 5 ⟨12, true, none, []⟩
      [FlowOp.ack 3]).unacknowledgedCharCount := by
  obtain ⟨h1, h2, h3⟩ := c3_flow_control_hysteresis 10 5 [6, 7] [20] [FlowOp.ack 3]
    ⟨12, true, none, []⟩ (by decide)
  refine ⟨by decide, ?_, ?_, h3 (by decide)⟩
  · rw [h1]
    decide
  · rw [h2 rfl (by decide)]
    decide

/-- C2 (evaluation at the failing scenario): after a close frame (opcode
0x08) has fired an exit event, the socket close callback fires a second exit
event — the code has no once-latch guarding `_onProcessExit`. -/
theorem c2_exit_fired_twice_on_close_then_socket_close :
    (handleSocketClose (handleFrame 100000 List.length initProcState
      ⟨0x08, []⟩)).events = [TermEvent.exit 0, TermEvent.exit 0] := by decide

/-- C8: on a close frame the recorded exit code is 0 regardless of the frame
payload (any carried close code is ignored), and on socket-level close the
exit code defaults to 0 when unset and is otherwise preserved. -/
theorem c8_exit_code_zero (high : Int) (textLen : List Nat → Nat)
    (f : WSFrame) (st : ProcState) (hop : f.opcode = 0x08) :
    (handleFrame high textLen st f).exitCode = some 0 ∧
    (handleSocketClose st).exitCode = some (st.exitCode.getD 0) := by
  constructor
  · simp [handleFrame, hop]
  · rfl

theorem c8_exit_code_zero_witness :
    (⟨0x08, [3, 232]⟩ : WSFrame).opcode = 0x08 ∧
    (handleFrame 100000 List.length initProcState ⟨0x08, [3, 232]⟩).exitCode =
      some 0 ∧
    (handleSocketClose initProcState).exitCode = some 0 :=
  ⟨rfl,
    (c8_exit_code_zero 100000 List.length ⟨0x08, [3, 232]⟩ initProcState rfl).1,
    (c8_exit_code_zero 100000 List.length ⟨0x08, [3, 232]⟩ initProcState rfl).2⟩

/-- State relevant to outbound sends: disposal flag, socket presence and
destroyed flag, the cached dimensions, and the frames written so far. -/
structure SendState where
  isDisposed : Bool
  socketPresent : Bool
  socketDestroyed : Bool
  cols : Int
  rows : Int
  written : List (List Nat)
deriving DecidableEq, Repr

/-- The guard shared by `input` and `resize`: disposed, no socket, or socket
destroyed. -/
def cannotSend (st : SendState) : Bool :=
  st.isDisposed || !st.socketPresent || st.socketDestroyed

/-- `input(data)`: silently return when the channel is not open, otherwise
encode a text frame and write it to the socket. -/
def input (mask : List Nat) (st : SendState) (data : List Nat) : SendState :=
  if cannotSend st then st
  else { st with written := st.written ++ [createWebSocketFrame true mask data] }

/-- The sideband resize control message, the result of serializing an object
with fields type (the literal resize), cols and rows to JSON. -/
def resizeMessage (cols rows : Int) : String :=
  "\x7b\"type\":\"resize\",\"cols\":" ++ toString cols ++ ",\"rows\":" ++
    toString rows ++ "\x7d"

/-- UTF-8 bytes of a string (the semantics of building a Buffer from it). -/
def strBytes (s : String) : List Nat :=
  s.toUTF8.data.toList.map (fun b => b.toNat)

/-- `resize(cols, rows)`: silently return when the channel is not open,
otherwise update the cached dimensions and send the JSON control message as
a text frame. -/
def resize (mask : List Nat) (st : SendState) (cols rows : Int) : SendState :=
  if cannotSend st then st
  else
    { st with
      cols := cols
      rows := rows
      written := st.written ++ [createWebSocketFrame true mask
        (strBytes (resizeMessage cols rows))] }

/-- C7: calling `input` or `resize` while the channel is not open (disposed,
no socket, or destroyed socket) is a silent no-op: the state is unchanged,
so no bytes are written and nothing is queued; totality of the functions
models absence of exceptions. -/
theorem c7_input_resize_noop_when_not_open (st : SendState) (mask data : List Nat)
    (cols rows : Int) (h : cannotSend st = true) :
    input mask st data = st ∧ resize mask st cols rows = st := by
  constructor
  · simp [input, h]
  · simp [resize, h]

theorem c7_input_resize_noop_witness :
    cannotSend ⟨false, false, false, 80, 24, []⟩ = true ∧
    input [0, 0, 0, 0] ⟨false, false, false, 80, 24, []⟩ [1] =
      ⟨false, false, false, 80, 24, []⟩ ∧
    resize [0, 0, 0, 0] ⟨false, false, false, 80, 24, []⟩ 100 50 =
      ⟨false, false, false, 80, 24, []⟩ :=
  ⟨rfl,
    (c7_input_resize_noop_when_not_open ⟨false, false, false, 80, 24, []⟩
      [0, 0, 0, 0] [1] 100 50 rfl).1,
    (c7_input_resize_noop_when_not_open ⟨false, false, false, 80, 24, []⟩
      [0, 0, 0, 0] [1] 100 50 rfl).2⟩

/-- Outcome of the `_createCmuxSession` response handler, as a function of
the HTTP status code, the accumulated body text, and the result of JSON
parsing of the body (`none` when parsing throws). -/
def createSessionResponse (statusCode : Nat) (body : String)
    (parsedId : Option String) : Except String String :=
  if statusCode = 200 then
    match parsedId with
    | some id => Except.ok id
    | none => Except.error ("Invalid JSON response: " ++ body)
  else
    Except.error ("HTTP " ++ toString statusCode ++ ": " ++ body)

/-- Result of `start()`: the launch-error message (if any) and whether the
ready event was fired. -/
structure StartOutcome where
  launchError : Option String
  readyFired : Bool
deriving DecidableEq, Repr

/-- Control flow of `start()` for the session-creating path: a failed create
(or a failed WebSocket connect, `connectError`) is caught and returned as a
launch error without firing ready; otherwise ready fires. -/
def start (createRes : Except String String)
    (connectError : Option String) : StartOutcome :=
  match createRes with
  | Except.error m =>
    { launchError := some ("Failed to create cmux session: " ++ m), readyFired := false }
  | Except.ok _ =>
    match connectError with
    | some m =>
      { launchError := some ("Failed to create cmux session: " ++ m), readyFired := false }
    | none => { launchError := none, readyFired := true }

/-- C6: when session creation returns HTTP 500 with body boom, `start()`
fails with a message containing the status 500 and the literal body text,
and the ready event is never fired, whatever the JSON parse result or the
later connect outcome would have been. -/
theorem c6_create_500_failure (parsedId connectError : Option String) :
    (start (createSessionResponse 500 ("boom") parsedId) connectError).readyFired
      = false ∧
    (∃ s1 s2, (start (createSessionResponse 500 ("boom") parsedId)
        connectError).launchError = some (s1 ++ "500" ++ s2)) ∧
    (∃ s1 s2, (start (createSessionResponse 500 ("boom") parsedId)
        connectError).launchError = some (s1 ++ "boom" ++ s2)) := by
  refine ⟨rfl, ⟨"Failed to create cmux session: HTTP ", ": boom", rfl⟩,
    ⟨"Failed to create cmux session: HTTP 500: ", "", rfl⟩⟩

/-- 32-bit signed truncation: the semantics of the JS ToInt32 conversion
performed by the shift and the self-AND in `_hashSessionId`. -/
def toInt32 (x : Int) : Int :=
  (x + 2147483648) % 4294967296 - 2147483648

/-- One iteration of the `_hashSessionId` loop: a 32-bit left shift by 5,
minus the old hash, plus the character code, truncated by the self-AND. -/
def hashStep (hash : Int) (c : Nat) : Int :=
  toInt32 (toInt32 (hash * 32) - hash + c)

/-- `_hashSessionId(sessionId)` over the UTF-16 code units of the id:
run the loop from 0, then take the absolute value. -/
def hashSessionId (s : List Nat) : Int :=
  |s.foldl hashStep 0|

/-- Modelled from the spec wording, for comparison with `hashSessionId`:
polynomial rolling hash with multiplier 31 over the character codes,
truncated to a signed 32-bit integer at each step, absolute value taken at
the end. -/
def specPolyHash (s : List Nat) : Int :=
  |s.foldl (fun h (c : Nat) => toInt32 (31 * h + (c : Int))) 0|

theorem hashStep_eq_spec : hashStep = fun h (c : Nat) => toInt32 (31 * h + (c : Int)) := by
  funext h c
  simp only [hashStep, toInt32]
  omega

/-- C9: `_hashSessionId` is a function of the character codes alone and
coincides with the spec-described polynomial rolling hash (multiplier 31,
signed 32-bit truncation each step, absolute value at the end); its result
is never negative. -/
theorem c9_hash_matches_poly_spec (s : List Nat) :
    hashSessionId s = specPolyHash s ∧ 0 ≤ hashSessionId s := by
  constructor
  · unfold hashSessionId specPolyHash
    rw [hashStep_eq_spec]
  · exact abs_nonneg _

end Cmux
